import Mathlib

/-!
Verification development for the pydwdapi weather-observation server.

The definitions below are a shallow embedding of the Python sources:

* `src/pydwdapi/database.py`   — observation store (sqlite): `MODALITY_MAP`,
  `store_observation`, `query_observations`.
* `src/pydwdapi/sources.py`    — source scheduler: `Sources.update`,
  `MIN_BACKOFF` / `MAX_BACKOFF`.
* `src/pydwdapi/interpolator.py` — directional split/join
  (`Interpolator._split_value` / `_join_values`), the clamp step of
  `Interpolator.interpolate`, and `MODALITY_NO_CLAMP`.
* `src/pydwdapi/__init__.py`   — interpolation cache and query orchestration
  (`PyDWDApi._cleanup_caches`, `_update_caches`, `interpolate_observations`).

Python floats are modelled as rationals (`ℚ`): every arithmetic operation the
claims depend on (comparisons, `* 1.5`, `min`/`max`, subtraction of
timestamps) is exact in binary floating point on the magnitudes involved, so
the rational model is faithful.  Python dicts are modelled as
insertion-ordered association lists with key lookup (`dictGet`).  Raised
exceptions are modelled with `Except Unit`.  The angle arithmetic of the
directional modality is modelled over `ℝ` with the exact `cos`/`sin`/`atan2`
the code calls through numpy.
-/

instance {E A : Type} [DecidableEq E] [DecidableEq A] :
    DecidableEq (Except E A) := fun x y =>
  match x, y with
  | .ok a, .ok b =>
    if h : a = b then isTrue (by rw [h])
    else isFalse (fun hc => h (by injection hc))
  | .error a, .error b =>
    if h : a = b then isTrue (by rw [h])
    else isFalse (fun hc => h (by injection hc))
  | .ok _, .error _ => isFalse (fun hc => Except.noConfusion hc)
  | .error _, .ok _ => isFalse (fun hc => Except.noConfusion hc)

/-- Association-list key lookup: the model of Python `k in d` / `d[k]`
(first entry with an equal key wins; dict keys are unique, so this matches). -/
def dictGet {A B : Type} [DecidableEq A] : List (A × B) → A → Option B
  | [], _ => none
  | e :: rest, k => if e.1 = k then some e.2 else dictGet rest k

/-- One row of the sqlite `observations` table, column order as in
`TABLE_SCHEMA_OBSERVATIONS` (`timestamp`, `value`, `modality`, `station`,
`source`) of `src/pydwdapi/database.py`. -/
structure Obs where
  timestamp : ℚ
  value : ℚ
  modality : ℕ
  station : ℕ
  source : ℕ
deriving DecidableEq, Repr

/-- `MODALITY_MAP` of `src/pydwdapi/database.py`: the seven modality names and
their integer codes stored in the database. -/
def MODALITY_MAP : List (String × ℕ) :=
  [("temperature", 100), ("pressure", 200), ("humidity", 300),
   ("wind_speed", 400), ("wind_speed_max", 500), ("wind_direction", 600),
   ("precipitation", 700)]

/-- The seven modality names (the key set of `MODALITY_MAP`). -/
def MODALITY_NAMES : List String := MODALITY_MAP.map (fun p => p.1)

/-- Python `MODALITY_MAP[modality]`: `some code` when the name is known,
`none` when indexing would raise `KeyError`. -/
def modalityCode (m : String) : Option ℕ :=
  (MODALITY_MAP.find? (fun p => p.1 == m)).map (fun p => p.2)

/-- `Database.store_observation`: appends one row, after looking the modality
name up in `MODALITY_MAP` (an unknown name raises `KeyError`, modelled as
`Except.error`). -/
def store_observation (db : List Obs) (ts v : ℚ) (modality : String)
    (stationId sourceId : ℕ) : Except Unit (List Obs) :=
  match modalityCode modality with
  | none => .error ()
  | some code => .ok (db ++ [⟨ts, v, code, stationId, sourceId⟩])

/-- Row order produced by `SQL_QUERY_OBSERVATIONS`: descending timestamps. -/
def obsDesc (a b : Obs) : Prop := b.timestamp ≤ a.timestamp

instance : DecidableRel obsDesc :=
  fun a b => inferInstanceAs (Decidable (b.timestamp ≤ a.timestamp))

instance : IsTotal Obs obsDesc := ⟨fun a b => le_total b.timestamp a.timestamp⟩

instance : IsTrans Obs obsDesc := ⟨fun _ _ _ hab hbc => le_trans hbc hab⟩

/-- Result set of `SQL_QUERY_OBSERVATIONS` for one modality code: the rows
with `modality = code AND timestamp > since AND timestamp <= maxTs`, in
`ORDER BY timestamp DESC` order (modelled with a stable sort). -/
def queryRows (db : List Obs) (code : ℕ) (since maxTs : ℚ) : List Obs :=
  List.insertionSort obsDesc
    (db.filter (fun o =>
      o.modality == code && decide (since < o.timestamp) &&
        decide (o.timestamp ≤ maxTs)))

/-- The per-row payload kept by `Database.query_observations`:
`(row[0], row[1], row[3])`, i.e. `(value, timestamp, source)`. -/
def obsPayload (o : Obs) : ℚ × ℚ × ℕ := (o.value, o.timestamp, o.source)

/-- Loop body of `Database.query_observations`: keep the first row seen for
each station (rows arrive newest first). -/
def queryFoldStep (res : List (ℕ × ℚ × ℚ × ℕ)) (o : Obs) :
    List (ℕ × ℚ × ℚ × ℕ) :=
  if (dictGet res o.station).isSome then res
  else res ++ [(o.station, obsPayload o)]

/-- `Database.query_observations`: maps each station to the single newest
in-range observation; unknown modality names raise `KeyError`. -/
def query_observations (db : List Obs) (modality : String)
    (since maxTs : ℚ) : Except Unit (List (ℕ × ℚ × ℚ × ℕ)) :=
  match modalityCode modality with
  | none => .error ()
  | some code => .ok ((queryRows db code since maxTs).foldl queryFoldStep [])

/-- `MIN_BACKOFF` of `src/pydwdapi/sources.py`. -/
def MIN_BACKOFF : ℚ := 60

/-- `MAX_BACKOFF` of `src/pydwdapi/sources.py`. -/
def MAX_BACKOFF : ℚ := 600

/-- The backoff escalation applied on the no-update path of `Sources.update`:
`min(MAX_BACKOFF, max(MIN_BACKOFF, backoff * 1.5))`. -/
def backoffStep (b : ℚ) : ℚ := min MAX_BACKOFF (max MIN_BACKOFF (b * 1.5))

/-- Outcome of `ftp_util.download_newest` for one source: `fail` models an
empty result list, `found` carries the modification timestamp and the result
of running `html_dwd_observation_parser.parse` on the payload (`Except.error`
models a raised parse exception; triples are `(modality, station_id, value)`). -/
inductive Fetch where
  | fail : Fetch
  | found : ℚ → Except Unit (List (String × ℕ × ℚ)) → Fetch

/-- Mutable per-source state touched by one tick of `Sources.update`: the
observation table, the stored `source_updates` timestamp for this source, and
the in-memory `self.backoff` entry (`none` when the key is absent). -/
structure SrcState where
  db : List Obs
  sourceTime : ℚ
  backoff : Option ℚ
deriving DecidableEq

/-- The store loop inside the `try` block of `Sources.update`: writes parsed
triples one by one; a raising `store_observation` stops the loop (rows already
written remain written, the flag records that the loop did not finish). -/
def storeLoop (db : List Obs) (ts : ℚ) (sourceId : ℕ) :
    List (String × ℕ × ℚ) → List Obs × Bool
  | [] => (db, true)
  | (m, stId, v) :: rest =>
    match store_observation db ts v m stId sourceId with
    | .ok db2 => storeLoop db2 ts sourceId rest
    | .error _ => (db, false)

/-- One source's slice of `Sources.update` (`src/pydwdapi/sources.py`,
lines 79-129).  When the source is due, an empty download result leads to
`res[0]` and hence an uncaught `IndexError` (`Except.error`).  A newer payload
enters the `try` block: on success the source timestamp becomes the payload
timestamp and the backoff resets to `0`; a parse or store exception is caught
and falls through to the no-update path, which escalates the backoff and sets
the source timestamp to `now - timeout + backoff`.  The returned flag is the
source's contribution to `has_changes`. -/
def tickSource (now timeout : ℚ) (sourceId : ℕ) (fetch : Fetch)
    (st : SrcState) : Except Unit (SrcState × Bool) :=
  if now - st.sourceTime > timeout then
    match fetch with
    | .fail => .error ()
    | .found modified parsed =>
      let tryRes : List Obs × Bool :=
        if modified > st.sourceTime then
          match parsed with
          | .error _ => (st.db, false)
          | .ok triples => storeLoop st.db modified sourceId triples
        else (st.db, false)
      if tryRes.2 then
        .ok (⟨tryRes.1, modified, some 0⟩,
          decide (st.db.length < tryRes.1.length))
      else
        let b := backoffStep (st.backoff.getD 0)
        .ok (⟨tryRes.1, now - timeout + b, some b⟩,
          decide (st.db.length < tryRes.1.length))
  else .ok (st, false)

/-- The whole `Sources.update` pass: ticks each configured source in turn
(each tuple is `(source_id, timeout, stored source time, backoff entry,
fetch outcome)`), threading the observation table and accumulating
`has_changes`; an uncaught per-source exception aborts the pass. -/
def sourcesUpdate (now : ℚ) :
    List (ℕ × ℚ × ℚ × Option ℚ × Fetch) → List Obs → Bool →
      Except Unit (List Obs × Bool)
  | [], db, hc => .ok (db, hc)
  | (sid, timeout, stime, b0, f) :: rest, db, hc =>
    match tickSource now timeout sid f ⟨db, stime, b0⟩ with
    | .error e => .error e
    | .ok (st2, ch) => sourcesUpdate now rest st2.db (hc || ch)

/-- The interpolator cache `self.interpolators`: an insertion-ordered map from
cache key `(modality, snapshot timestamp)` to `[Interpolator, usage]`.  The
built interpolator object is abstracted to an identifying token (`ℕ`), since
model identity — not the fitted radial-basis coefficients — is what the cache
claims are about; the usage counter is an integer (decrements can drive it
negative). -/
abbrev Cache : Type := List ((String × ℚ) × (ℕ × ℤ))

instance : DecidableEq (Cache × ℕ) := inferInstance

instance : DecidableEq (ℚ × Cache × ℕ) := inferInstance

instance : DecidableEq (Option (List (String × ℚ)) × ℚ × Cache × ℕ) :=
  inferInstance

/-- `PyDWDApi._cleanup_caches`: a no-op below 1024 entries, otherwise deletes
every entry whose usage counter equals the minimum usage counter. -/
def cleanup_caches (c : Cache) : Cache :=
  if c.length < 1024 then c
  else
    match (c.map (fun e => e.2.2)).min? with
    | none => c
    | some m => c.filter (fun e => !(e.2.2 == m))

/-- `PyDWDApi._update_caches`: increments the usage counter of the given entry
and decrements the counter of every other entry. -/
def update_caches (c : Cache) (k : String × ℚ) : Cache :=
  c.map (fun e =>
    if e.1 = k then (e.1, (e.2.1, e.2.2 + 1)) else (e.1, (e.2.1, e.2.2 - 1)))

/-- The per-modality cache management of `PyDWDApi.interpolate_observations`
(lines 215-228): on a hit the stored model is reused; on a miss the cache is
cleaned up and a freshly built model (token `fid`) is inserted with usage
counter `0`; in both cases `_update_caches` then runs for the touched entry.
Returns the new cache, the token of the model that was evaluated, and whether
a model was (re)built. -/
def cacheStep (c : Cache) (k : String × ℚ) (fid : ℕ) : Cache × ℕ × Bool :=
  match dictGet c k with
  | some e => (update_caches c k, e.1, false)
  | none => (update_caches (cleanup_caches c ++ [(k, (fid, 0))]) k, fid, true)

/-- Python `max(map(lambda x: x[1], observations.values()))`: the largest
timestamp in a (nonempty) `query_observations` result. -/
def maxSnapshotTs : List (ℕ × ℚ × ℚ × ℕ) → ℚ
  | [] => 0
  | e :: rest => rest.foldl (fun a x => max a x.2.2.1) e.2.2.1

/-- The modality loop of `PyDWDApi.interpolate_observations` (lines 202-229).
Arguments mirror the local state of the loop: remaining modalities, the
accumulated `res` list (reversed), `res_ts`, the cache, and the next fresh
model token.  Each modality's interpolation result is abstracted to the pair
`(modality, snapshot timestamp)` identifying the model that line 224
evaluates; station-coordinate resolution inside the `Interpolator` constructor
is assumed to succeed.  An empty observation set makes the whole call return
`(None, 0.0)` (line 211); an unknown modality name propagates the `KeyError`
raised by the database layer. -/
def interpLoop (db : List Obs) (since maxTs : ℚ) :
    List String → List (String × ℚ) → ℚ → Cache → ℕ →
      Except Unit (Option (List (String × ℚ)) × ℚ × Cache × ℕ)
  | [], acc, resTs, c, fr => .ok (some acc.reverse, resTs, c, fr)
  | m :: rest, acc, resTs, c, fr =>
    match query_observations db m since maxTs with
    | .error e => .error e
    | .ok observations =>
      if observations.length = 0 then .ok (none, 0, c, fr)
      else
        let latestTs := maxSnapshotTs observations
        let s := cacheStep c (m, latestTs) fr
        interpLoop db since maxTs rest ((m, latestTs) :: acc)
          (max resTs latestTs) s.1 (if s.2.2 then fr + 1 else fr)

/-- `PyDWDApi.interpolate_observations` for an already-normalized modality
list: returns `(results, res_ts)` plus the threaded cache state. -/
def interpolate_observations (db : List Obs) (modalities : List String)
    (since maxTs : ℚ) (c : Cache) (fr : ℕ) :
    Except Unit (Option (List (String × ℚ)) × ℚ × Cache × ℕ) :=
  interpLoop db since maxTs modalities [] 0 c fr

/-- `MODALITY_NO_CLAMP` of `src/pydwdapi/interpolator.py`, line 37: the Python
expression is `set("wind_direction")`, which builds the set of the ten
distinct characters of that string (each a length-1 string), not the
singleton `{"wind_direction"}`. -/
def MODALITY_NO_CLAMP : List String :=
  ["w", "i", "n", "d", "_", "r", "e", "c", "t", "o"]

/-- The clamp step at the end of `Interpolator.interpolate` (lines 178-181):
`np.maximum(np.minimum(res, max_value), min_value)` unless the modality is a
member of `MODALITY_NO_CLAMP`. -/
def interpolateClamp (modality : String) (minValue maxValue v : ℚ) : ℚ :=
  if modality ∈ MODALITY_NO_CLAMP then v
  else max (min v maxValue) minValue

/-- Python `np.radians`: degrees to radians. -/
noncomputable def deg2rad (v : ℝ) : ℝ := v * (Real.pi / 180)

/-- `Interpolator._split_value` for the `wind_direction` modality:
`(cos(radians(v)), sin(radians(v)))`. -/
noncomputable def split_value (v : ℝ) : ℝ × ℝ :=
  (Real.cos (deg2rad v), Real.sin (deg2rad v))

/-- `np.arctan2 y x`: the argument of the complex number `x + y*I`,
in `(-π, π]`. -/
noncomputable def arctan2 (y x : ℝ) : ℝ := Complex.arg ⟨x, y⟩

/-- `Interpolator._join_values` for the `wind_direction` modality:
`arctan2(vs[1], vs[0]) * 180.0 / pi + 180.0`. -/
noncomputable def join_values (p : ℝ × ℝ) : ℝ :=
  arctan2 p.2 p.1 * 180 / Real.pi + 180

/-- Sample database with observations at timestamps 10, 20 and 30 for
station 1, modality `temperature` (code 100), all from source 1. -/
def sampleDb : List Obs :=
  [⟨10, 3, 100, 1, 1⟩, ⟨20, 7, 100, 1, 1⟩, ⟨30, 9, 100, 1, 1⟩]

/-- Sample database with a single `temperature` observation and no
`humidity` observations. -/
def sampleDb2 : List Obs := [⟨20, 5, 100, 1, 1⟩]

/-- Sample interpolator cache holding two entries. -/
def sampleCache : Cache :=
  [(("temperature", 20), (7, 0)), (("pressure", 20), (8, 5))]

/-- A modality name outside `MODALITY_NAMES` resolves to no code. -/
lemma modalityCode_none (m : String) (hm : m ∉ MODALITY_NAMES) :
    modalityCode m = none := by
  cases hf : MODALITY_MAP.find? (fun p => p.1 == m) with
  | none => simp [modalityCode, hf]
  | some x =>
    exfalso
    apply hm
    have hx : x ∈ MODALITY_MAP := List.mem_of_find?_eq_some hf
    have hx1 : x.1 = m := by simpa using List.find?_some hf
    unfold MODALITY_NAMES
    exact hx1 ▸ List.mem_map_of_mem (fun p => p.1) hx

/-- C10: storing or querying with a modality name outside the seven names of
`MODALITY_MAP` raises `KeyError` (modelled as `Except.error`), for every
database state and every argument combination. -/
theorem unknown_modality_raises (m : String) (hm : m ∉ MODALITY_NAMES)
    (db : List Obs) (ts v since maxTs : ℚ) (stationId sourceId : ℕ) :
    store_observation db ts v m stationId sourceId = .error () ∧
    query_observations db m since maxTs = .error () := by
  rw [store_observation, query_observations, modalityCode_none m hm]
  exact ⟨rfl, rfl⟩

/-- Witness for C10 at the spec's own example name `bogus_modality`. -/
theorem unknown_modality_raises_witness :
    store_observation [] 1 2 "bogus_modality" 3 4 = .error () ∧
    query_observations [] "bogus_modality" 0 25 = .error () :=
  unknown_modality_raises "bogus_modality" (by decide) [] 1 2 0 25 3 4

/-- C3: `MODALITY_NO_CLAMP = set("wind_direction")` is a set of single
characters, so the membership test in `Interpolator.interpolate` never
exempts the `wind_direction` modality and its rejoined angle is clamped into
the raw snapshot range (here `[90, 200]`, turning an interpolated `270` into
`200`), while a scalar modality is clamped as the spec describes. -/
theorem wind_direction_clamped_bug :
    ("wind_direction" ∉ MODALITY_NO_CLAMP) ∧
    interpolateClamp "wind_direction" 90 200 270 = 200 ∧
    ((200 : ℚ) ≠ 270) ∧
    interpolateClamp "temperature" 0 100 150 = 100 := by
  refine ⟨by decide, by decide, by decide, by decide⟩

/-- C5: a due source whose download returns an empty result list makes the
tick raise (the code logs a warning and then evaluates `res[0]` anyway), and
that exception aborts the whole `Sources.update` pass: with the failing
source first, the second source — which alone would have ingested an
observation and returned normally — is never processed. -/
theorem empty_fetch_aborts_update_pass :
    tickSource 100 10 1 .fail ⟨[], 0, none⟩ = .error () ∧
    sourcesUpdate 100 [(1, 10, 0, none, .fail),
      (2, 10, 0, none, .found 50 (.ok [("temperature", 3, 5)]))] [] false =
      .error () ∧
    sourcesUpdate 100 [(2, 10, 0, none, .found 50 (.ok [("temperature", 3, 5)]))]
      [] false = .ok ([⟨50, 5, 100, 3, 2⟩], true) := by
  refine ⟨?_, ?_, ?_⟩
  · norm_num [tickSource]
  · norm_num [sourcesUpdate, tickSource]
  · norm_num [sourcesUpdate, tickSource, storeLoop, store_observation,
      modalityCode, MODALITY_MAP]

/-- C4 counterexample: a parse failure (`Except.error` from the parser) on a
due source with a newer payload does NOT leave the source in its previous
state: from `sourceTime = 0`, `backoff` absent, `now = 100`, `timeout = 10`,
the stored source time advances to `100 - 10 + 60 = 150` and the backoff
entry becomes `60`. -/
theorem parse_failure_advances_state_counterexample :
    tickSource 100 10 1 (.found 50 (.error ())) ⟨[], 0, none⟩ =
      .ok (⟨[], 150, some 60⟩, false) ∧
    ((150 : ℚ) ≠ 0 ∧ (some (60 : ℚ)) ≠ (none : Option ℚ)) := by
  refine ⟨?_, by norm_num, by simp⟩
  norm_num [tickSource, backoffStep, MIN_BACKOFF, MAX_BACKOFF]

/-- C4 amended: the parse failure is caught locally (the tick returns
normally rather than propagating), but the source then takes the no-update
path: `backoff` is escalated to `clamp(1.5 * backoff, 60, 600)` and the
stored source time is set to `now - timeout + backoff`, so the retry is
delayed with penalty escalation rather than left unchanged. -/
theorem parse_failure_takes_backoff_path (now timeout modified : ℚ)
    (sid : ℕ) (st : SrcState)
    (hdue : now - st.sourceTime > timeout) (hnew : modified > st.sourceTime) :
    tickSource now timeout sid (.found modified (.error ())) st =
      .ok (⟨st.db, now - timeout + backoffStep (st.backoff.getD 0),
        some (backoffStep (st.backoff.getD 0))⟩, false) := by
  simp [tickSource, if_pos hdue, if_pos hnew, lt_irrefl]

/-- Witness for C4's amended statement at a concrete due source. -/
theorem parse_failure_takes_backoff_path_witness :
    tickSource 100 10 1 (.found 50 (.error ())) ⟨[], 0, none⟩ =
      .ok (⟨[], 100 - 10 + backoffStep ((none : Option ℚ).getD 0),
        some (backoffStep ((none : Option ℚ).getD 0))⟩, false) :=
  parse_failure_takes_backoff_path 100 10 50 1 ⟨[], 0, none⟩
    (by norm_num) (by norm_num)

/-- C6: on a due tick that finds no newer payload, `Sources.update` applies
`backoff := min(MAX_BACKOFF, max(MIN_BACKOFF, backoff * 1.5))` — i.e.
`clamp(backoff * 1.5, 60, 600)` — and reschedules the source; the resulting
backoff sequence is bounded by `[60, 600]` from the first no-data outcome on
and is non-decreasing. -/
theorem backoff_clamp_monotone_bounded (now timeout modified : ℚ) (sid : ℕ)
    (parsed : Except Unit (List (String × ℕ × ℚ))) (st : SrcState)
    (hdue : now - st.sourceTime > timeout)
    (hstale : ¬ modified > st.sourceTime) :
    tickSource now timeout sid (.found modified parsed) st =
      .ok (⟨st.db, now - timeout + backoffStep (st.backoff.getD 0),
        some (backoffStep (st.backoff.getD 0))⟩, false) ∧
    (∀ b : ℚ, backoffStep b = min MAX_BACKOFF (max MIN_BACKOFF (b * 1.5))) ∧
    (∀ b : ℚ, 0 ≤ b →
      MIN_BACKOFF ≤ backoffStep b ∧ backoffStep b ≤ MAX_BACKOFF) ∧
    (∀ b : ℚ, 0 ≤ b → b ≤ MAX_BACKOFF → b ≤ backoffStep b) ∧
    (∀ (b : ℚ) (n : ℕ), 0 ≤ b →
      MIN_BACKOFF ≤ backoffStep^[n + 1] b ∧
      backoffStep^[n + 1] b ≤ MAX_BACKOFF ∧
      backoffStep^[n + 1] b ≤ backoffStep^[n + 2] b) := by
  have hlow : ∀ b : ℚ, 0 ≤ b →
      MIN_BACKOFF ≤ backoffStep b ∧ backoffStep b ≤ MAX_BACKOFF := by
    intro b _
    constructor
    · apply le_min
      · norm_num [MIN_BACKOFF, MAX_BACKOFF]
      · exact le_max_left _ _
    · exact min_le_left _ _
  have hmono : ∀ b : ℚ, 0 ≤ b → b ≤ MAX_BACKOFF → b ≤ backoffStep b := by
    intro b hb hbmax
    apply le_min hbmax
    refine le_trans ?_ (le_max_right _ _)
    nlinarith
  have hiter : ∀ (b : ℚ) (n : ℕ), 0 ≤ b →
      MIN_BACKOFF ≤ backoffStep^[n + 1] b ∧
      backoffStep^[n + 1] b ≤ MAX_BACKOFF ∧
      backoffStep^[n + 1] b ≤ backoffStep^[n + 2] b := by
    intro b n hb
    have hz : (0 : ℚ) ≤ MIN_BACKOFF := by norm_num [MIN_BACKOFF]
    have hbounds : ∀ k : ℕ, MIN_BACKOFF ≤ backoffStep^[k + 1] b ∧
        backoffStep^[k + 1] b ≤ MAX_BACKOFF := by
      intro k
      induction k with
      | zero => simpa using hlow b hb
      | succ j ih =>
        rw [Function.iterate_succ_apply']
        exact hlow _ (le_trans hz ih.1)
    refine ⟨(hbounds n).1, (hbounds n).2, ?_⟩
    have h1 := hbounds n
    have h2 : backoffStep^[n + 2] b = backoffStep (backoffStep^[n + 1] b) :=
      Function.iterate_succ_apply' backoffStep (n + 1) b
    rw [h2]
    exact hmono _ (le_trans hz h1.1) h1.2
  refine ⟨?_, fun b => rfl, hlow, hmono, hiter⟩
  unfold tickSource
  rw [if_pos hdue]
  dsimp only
  rw [if_neg hstale]
  simp

/-- Witness for C6 at a concrete due, no-newer-payload tick. -/
theorem backoff_clamp_monotone_bounded_witness :
    tickSource 100 10 1 (.found 50 (.ok [])) ⟨[], 60, some 90⟩ =
      .ok (⟨[], 100 - 10 + backoffStep ((some (90 : ℚ)).getD 0),
        some (backoffStep ((some (90 : ℚ)).getD 0))⟩, false) :=
  (backoff_clamp_monotone_bounded 100 10 50 1 (.ok []) ⟨[], 60, some 90⟩
    (by norm_num) (by norm_num)).1

/-- Splitting a `dictGet` over list append. -/
lemma dictGet_append {A B : Type} [DecidableEq A] (l1 l2 : List (A × B))
    (k : A) :
    dictGet (l1 ++ l2) k =
      match dictGet l1 k with
      | some v => some v
      | none => dictGet l2 k := by
  induction l1 with
  | nil => simp [dictGet]
  | cons e rest ih => by_cases h : e.1 = k <;> simp [dictGet, h, ih]

/-- A key is absent exactly when no entry carries it. -/
lemma dictGet_eq_none_iff {A B : Type} [DecidableEq A] (l : List (A × B))
    (k : A) :
    dictGet l k = none ↔ ∀ e ∈ l, e.1 ≠ k := by
  induction l with
  | nil => simp [dictGet]
  | cons e rest ih => by_cases h : e.1 = k <;> simp [dictGet, h, ih]

/-- `_update_caches` leaves keys in place and adjusts exactly the counters:
`+1` for the touched key, `-1` for every other key. -/
lemma dictGet_update_caches (c : Cache) (k k2 : String × ℚ) :
    dictGet (update_caches c k) k2 =
      (dictGet c k2).map (fun p =>
        if k2 = k then (p.1, p.2 + 1) else (p.1, p.2 - 1)) := by
  induction c with
  | nil => simp [update_caches, dictGet]
  | cons e rest ih =>
    rcases eq_or_ne e.1 k2 with h2 | h2
    · rcases eq_or_ne e.1 k with h1 | h1
      · have hk : k2 = k := by rw [← h2, h1]
        simp [update_caches, dictGet, h1, h2, hk]
      · have hk : k2 ≠ k := by rw [← h2]; exact h1
        simp [update_caches, dictGet, h1, h2, hk]
    · rcases eq_or_ne e.1 k with h1 | h1
      · simp only [update_caches, List.map_cons, dictGet, if_pos h1]
        rw [if_neg (by simpa using h2), if_neg h2]
        simpa [update_caches] using ih
      · simp only [update_caches, List.map_cons, dictGet, if_neg h1]
        rw [if_neg (by simpa using h2), if_neg h2]
        simpa [update_caches] using ih

/-- `_update_caches` does not change the number of entries. -/
lemma update_caches_length (c : Cache) (k : String × ℚ) :
    (update_caches c k).length = c.length := by
  simp [update_caches]

/-- Below capacity `_cleanup_caches` evicts nothing. -/
lemma cleanup_caches_below (c : Cache) (h : c.length < 1024) :
    cleanup_caches c = c := by
  simp [cleanup_caches, h]

/-- Every surviving entry of `_cleanup_caches` was in the cache. -/
lemma cleanup_caches_subset (c : Cache) : ∀ e ∈ cleanup_caches c, e ∈ c := by
  intro e he
  unfold cleanup_caches at he
  split at he
  · exact he
  · split at he
    · exact he
    · exact List.mem_of_mem_filter he

/-- At or above capacity `_cleanup_caches` evicts exactly the entries tied
for the minimum usage counter, and at least one entry. -/
lemma cleanup_caches_at_capacity (c : Cache) (h : 1024 ≤ c.length) :
    ∃ m, (c.map (fun e => e.2.2)).min? = some m ∧
      cleanup_caches c = c.filter (fun e => !(e.2.2 == m)) ∧
      (cleanup_caches c).length < c.length := by
  have hne : c ≠ [] := by
    intro hc
    rw [hc] at h
    simp at h
  obtain ⟨m, hm⟩ : ∃ m, (c.map (fun e => e.2.2)).min? = some m := by
    cases hmin : (c.map (fun e => e.2.2)).min? with
    | none =>
      exfalso
      exact hne (by simpa using List.min?_eq_none_iff.mp hmin)
    | some m => exact ⟨m, rfl⟩
  have hcleanup : cleanup_caches c = c.filter (fun e => !(e.2.2 == m)) := by
    simp [cleanup_caches, Nat.not_lt.mpr h, hm]
  have hmem : m ∈ c.map (fun e => e.2.2) :=
    List.min?_mem (fun a b => min_choice a b) hm
  obtain ⟨e, he, hem⟩ := List.mem_map.mp hmem
  have hlt : (c.filter (fun e => !(e.2.2 == m))).length < c.length :=
    List.length_filter_lt_length_iff_exists.mpr ⟨e, he, by simp [hem]⟩
  exact ⟨m, hm, hcleanup, hcleanup ▸ hlt⟩

/-- A key absent from the cache stays absent after `_cleanup_caches`. -/
lemma dictGet_cleanup_none (c : Cache) (k : String × ℚ)
    (h : dictGet c k = none) : dictGet (cleanup_caches c) k = none := by
  rw [dictGet_eq_none_iff] at h ⊢
  exact fun e he => h e (cleanup_caches_subset c e he)

/-- A fresh entry appended behind an absent key is found with its payload. -/
lemma dictGet_insert (c : Cache) (k : String × ℚ) (v : ℕ × ℤ)
    (h : dictGet c k = none) : dictGet (c ++ [(k, v)]) k = some v := by
  rw [dictGet_append, h]
  simp [dictGet]

/-- C8: on a cache miss, `_cleanup_caches` evicts nothing below capacity;
at capacity it evicts exactly the cohort of entries tied for the minimum
usage counter (at least one entry); the new model is inserted with usage
counter `0`; and the post-step cache size stays at or below the 1024-entry
capacity (the bound `c.length ≤ 1024` is itself the invariant this step
preserves, starting from the empty cache). -/
theorem cache_eviction_policy (c : Cache) (k : String × ℚ) (fid : ℕ)
    (hmiss : dictGet c k = none) (hinv : c.length ≤ 1024) :
    (c.length < 1024 → cleanup_caches c = c) ∧
    (1024 ≤ c.length →
      ∃ m, (c.map (fun e => e.2.2)).min? = some m ∧
        cleanup_caches c = c.filter (fun e => !(e.2.2 == m)) ∧
        (cleanup_caches c).length < c.length) ∧
    dictGet (cleanup_caches c ++ [(k, (fid, 0))]) k = some (fid, 0) ∧
    (cacheStep c k fid).1.length ≤ 1024 := by
  refine ⟨cleanup_caches_below c, cleanup_caches_at_capacity c, ?_, ?_⟩
  · exact dictGet_insert _ k _ (dictGet_cleanup_none c k hmiss)
  · simp only [cacheStep, hmiss]
    rw [update_caches_length, List.length_append]
    by_cases hlen : c.length < 1024
    · rw [cleanup_caches_below c hlen]
      simp
      omega
    · have h1024 : 1024 ≤ c.length := Nat.not_lt.mp hlen
      obtain ⟨m, _, _, hlt⟩ := cleanup_caches_at_capacity c h1024
      simp
      omega

/-- Witness for C8 starting from the empty cache. -/
theorem cache_eviction_policy_witness :
    dictGet (cleanup_caches ([] : Cache) ++ [(("temperature", 0), (0, 0))])
      ("temperature", 0) = some (0, 0) ∧
    (cacheStep ([] : Cache) ("temperature", 0) 0).1.length ≤ 1024 := by
  have h := cache_eviction_policy [] ("temperature", 0) 0 rfl (by decide)
  exact ⟨h.2.2.1, h.2.2.2⟩

/-- C9: a query whose cache key is present reuses the stored model token
without a rebuild; the hit entry's usage counter is incremented by one and
every other entry's counter is decremented by one (entry count unchanged). -/
theorem cache_hit_reuses_model (c : Cache) (k : String × ℚ) (fid mid : ℕ)
    (cnt : ℤ) (hhit : dictGet c k = some (mid, cnt)) :
    (cacheStep c k fid).2.2 = false ∧
    (cacheStep c k fid).2.1 = mid ∧
    (cacheStep c k fid).1.length = c.length ∧
    dictGet (cacheStep c k fid).1 k = some (mid, cnt + 1) ∧
    (∀ (k2 : String × ℚ) (mid2 : ℕ) (cnt2 : ℤ), k2 ≠ k →
      dictGet c k2 = some (mid2, cnt2) →
      dictGet (cacheStep c k fid).1 k2 = some (mid2, cnt2 - 1)) := by
  have hstep : cacheStep c k fid = (update_caches c k, mid, false) := by
    simp [cacheStep, hhit]
  refine ⟨by rw [hstep], by rw [hstep], ?_, ?_, ?_⟩
  · rw [hstep]
    exact update_caches_length c k
  · rw [hstep]
    simp [dictGet_update_caches, hhit]
  · intro k2 mid2 cnt2 hne hget
    rw [hstep]
    simp [dictGet_update_caches, hget, hne]

/-- Witness for C9 on a concrete two-entry cache. -/
theorem cache_hit_reuses_model_witness :
    (cacheStep sampleCache ("temperature", 20) 99).2.2 = false ∧
    (cacheStep sampleCache ("temperature", 20) 99).2.1 = 7 ∧
    dictGet (cacheStep sampleCache ("temperature", 20) 99).1
      ("pressure", 20) = some (8, 4) := by
  have h := cache_hit_reuses_model sampleCache ("temperature", 20) 99 7 0
    (by decide)
  refine ⟨h.1, h.2.1, ?_⟩
  have h5 := h.2.2.2.2 ("pressure", 20) 8 5 (by decide) (by decide)
  simpa using h5

/-- C2 counterexample: the split/rejoin round trip maps 90 degrees to 270
degrees, not back to 90: `arctan2(sin 90°, cos 90°) * 180 / π + 180 = 270`. -/
theorem join_split_90_counterexample :
    join_values (split_value 90) = 270 ∧ (270 : ℝ) ≠ 90 := by
  constructor
  · have h1 : deg2rad 90 = Real.pi / 2 := by
      rw [deg2rad]
      ring
    have hsplit : split_value 90 = (0, 1) := by
      rw [split_value, h1, Real.cos_pi_div_two, Real.sin_pi_div_two]
    rw [hsplit, join_values, arctan2]
    have hI : (⟨0, 1⟩ : ℂ) = Complex.I := by
      apply Complex.ext <;> simp
    rw [hI, Complex.arg_I]
    have hπ : Real.pi ≠ 0 := Real.pi_ne_zero
    field_simp
    ring
  · norm_num

/-- C2 amended: for any angle `v` in `(-180, 180]` the rejoin of the split is
`v + 180` — the original angle shifted by half a turn, landing in `(0, 360]`
— rather than `v` normalized into `[0, 360)`; together with the periodicity
of the split this determines the round trip for every angle. -/
theorem join_split_shifts_by_180 (v : ℝ) (h1 : -180 < v) (h2 : v ≤ 180) :
    join_values (split_value v) = v + 180 := by
  have hπ := Real.pi_pos
  have hne : Real.pi ≠ 0 := Real.pi_ne_zero
  have hmem : deg2rad v ∈ Set.Ioc (-Real.pi) Real.pi := by
    rw [deg2rad]
    constructor
    · nlinarith
    · nlinarith
  have hcast : (⟨Real.cos (deg2rad v), Real.sin (deg2rad v)⟩ : ℂ)
      = Complex.cos (deg2rad v) + Complex.sin (deg2rad v) * Complex.I := by
    apply Complex.ext <;>
      simp [Complex.cos_ofReal_re, Complex.sin_ofReal_re]
  have harg : Complex.arg ⟨Real.cos (deg2rad v), Real.sin (deg2rad v)⟩
      = deg2rad v := by
    rw [hcast]
    exact Complex.arg_cos_add_sin_mul_I hmem
  rw [join_values, split_value, arctan2, harg, deg2rad]
  field_simp

/-- Witness for C2's amended statement at 90 degrees. -/
theorem join_split_shifts_by_180_witness :
    join_values (split_value 90) = 90 + 180 :=
  join_split_shifts_by_180 90 (by norm_num) (by norm_num)

/-- Characterization of the `query_observations` fold: looking up a station
in the folded result returns the payload of the first row for that station,
behind whatever the accumulator already holds. -/
lemma queryFold_dictGet (rows : List Obs) :
    ∀ (acc : List (ℕ × ℚ × ℚ × ℕ)) (st : ℕ),
      dictGet (rows.foldl queryFoldStep acc) st =
        match dictGet acc st with
        | some p => some p
        | none => (rows.find? (fun o => o.station == st)).map obsPayload := by
  induction rows with
  | nil =>
    intro acc st
    cases h : dictGet acc st <;> simp [h]
  | cons o rest ih =>
    intro acc st
    rw [List.foldl_cons, ih]
    rcases eq_or_ne o.station st with hst | hst
    · subst hst
      cases hacc : dictGet acc o.station with
      | some p0 =>
        have hstep : queryFoldStep acc o = acc := by
          simp [queryFoldStep, hacc]
        rw [hstep, hacc]
      | none =>
        have hstep : queryFoldStep acc o = acc ++ [(o.station, obsPayload o)] := by
          simp [queryFoldStep, hacc]
        rw [hstep, dictGet_append, hacc]
        simp [dictGet, List.find?]
    · have hfind : List.find? (fun x => x.station == st) (o :: rest) =
          List.find? (fun x => x.station == st) rest := by
        rw [List.find?_cons_of_neg]
        simp [hst]
      rw [hfind]
      have hdg : dictGet (queryFoldStep acc o) st = dictGet acc st := by
        rw [queryFoldStep]
        split
        · rfl
        · rw [dictGet_append]
          cases h : dictGet acc st
          · simp [dictGet, hst]
          · simp
      rw [hdg]

/-- The rows fed to the fold are sorted by descending timestamp. -/
lemma sorted_queryRows (db : List Obs) (code : ℕ) (since maxTs : ℚ) :
    List.Sorted obsDesc (queryRows db code since maxTs) :=
  List.sorted_insertionSort obsDesc _

/-- Membership in the row set is exactly the SQL `WHERE` clause. -/
lemma mem_queryRows_iff (db : List Obs) (code : ℕ) (since maxTs : ℚ)
    (o : Obs) :
    o ∈ queryRows db code since maxTs ↔
      o ∈ db ∧ o.modality = code ∧ since < o.timestamp ∧
        o.timestamp ≤ maxTs := by
  rw [queryRows, (List.perm_insertionSort obsDesc _).mem_iff]
  simp [List.mem_filter, and_assoc]

/-- In a descending-sorted row list, the first row matching a predicate has
the largest timestamp among all matching rows. -/
lemma find?_max_of_sorted {rows : List Obs} {p : Obs → Bool} {o : Obs}
    (hs : List.Sorted obsDesc rows) (hf : rows.find? p = some o) :
    ∀ x ∈ rows, p x = true → x.timestamp ≤ o.timestamp := by
  induction rows with
  | nil => simp at hf
  | cons a l ih =>
    rw [List.sorted_cons] at hs
    by_cases hpa : p a
    · have hao : a = o := by
        rw [List.find?_cons_of_pos _ hpa] at hf
        exact Option.some.inj hf
      intro x hx _
      rcases List.mem_cons.mp hx with rfl | hxl
      · rw [hao]
      · rw [← hao]
        exact hs.1 x hxl
    · rw [List.find?_cons_of_neg _ (by simpa using hpa)] at hf
      intro x hx hpx
      rcases List.mem_cons.mp hx with rfl | hxl
      · exact absurd hpx (by simpa using hpa)
      · exact ih hs.2 hf x hxl hpx

/-- C7: for every database, known modality and time window `(since, maxTs]`,
a successful `query_observations` maps each station to a stored observation
of that modality in the window carrying the maximum timestamp among that
station's in-window observations, and stations with no in-window observation
are absent. -/
theorem latest_observation_query (db : List Obs) (m : String)
    (since maxTs : ℚ) (code : ℕ) (r : List (ℕ × ℚ × ℚ × ℕ))
    (hcode : modalityCode m = some code)
    (hq : query_observations db m since maxTs = .ok r) :
    (∀ st v t src, dictGet r st = some (v, t, src) →
      ((⟨t, v, code, st, src⟩ : Obs) ∈ db ∧ since < t ∧ t ≤ maxTs) ∧
      ∀ o ∈ db, o.station = st → o.modality = code →
        since < o.timestamp → o.timestamp ≤ maxTs → o.timestamp ≤ t) ∧
    (∀ st, dictGet r st = none →
      ∀ o ∈ db, o.station = st → o.modality = code →
        ¬(since < o.timestamp ∧ o.timestamp ≤ maxTs)) := by
  have hr : r = (queryRows db code since maxTs).foldl queryFoldStep [] := by
    rw [query_observations, hcode] at hq
    injection hq with h
    exact h.symm
  have hlook : ∀ st, dictGet r st =
      ((queryRows db code since maxTs).find?
        (fun o => o.station == st)).map obsPayload := by
    intro st
    rw [hr, queryFold_dictGet]
    simp [dictGet]
  constructor
  · intro st v t src hget
    rw [hlook st] at hget
    rcases Option.map_eq_some'.mp hget with ⟨oo, hfind, hpay⟩
    have homem : oo ∈ queryRows db code since maxTs :=
      List.mem_of_find?_eq_some hfind
    have host : oo.station = st := by simpa using List.find?_some hfind
    rcases (mem_queryRows_iff db code since maxTs oo).mp homem with
      ⟨hdb, hmod, hsince, hmax⟩
    obtain ⟨ts0, v0, md0, st0, src0⟩ := oo
    simp only [obsPayload, Prod.mk.injEq] at hpay
    obtain ⟨hv, ht, hsrc⟩ := hpay
    dsimp only at host hmod hsince hmax
    subst hv
    subst ht
    subst hsrc
    subst host
    subst hmod
    refine ⟨⟨hdb, hsince, hmax⟩, ?_⟩
    intro o ho hos homod hosince homax
    have homem2 : o ∈ queryRows db md0 since maxTs :=
      (mem_queryRows_iff db md0 since maxTs o).mpr
        ⟨ho, homod, hosince, homax⟩
    exact find?_max_of_sorted (sorted_queryRows db md0 since maxTs) hfind o
      homem2 (by simp [hos])
  · intro st hget o ho hos homod hcontra
    rw [hlook st] at hget
    have hfind : (queryRows db code since maxTs).find?
        (fun o => o.station == st) = none := Option.map_eq_none'.mp hget
    rw [List.find?_eq_none] at hfind
    have homem : o ∈ queryRows db code since maxTs :=
      (mem_queryRows_iff db code since maxTs o).mpr
        ⟨ho, homod, hcontra.1, hcontra.2⟩
    exact hfind o homem (by simp [hos])

/-- Witness for C7 on observations at timestamps 10, 20, 30 queried with the
window `(0, 25]`: the returned entry is the stored timestamp-20 observation,
and the timestamp-10 observation is bounded by it. -/
theorem latest_observation_query_witness :
    ((⟨20, 7, 100, 1, 1⟩ : Obs) ∈ sampleDb ∧ (0 : ℚ) < 20 ∧
      (20 : ℚ) ≤ 25) ∧ (10 : ℚ) ≤ 20 := by
  have h := latest_observation_query sampleDb "temperature" 0 25 100
    [(1, (7, 20, 1))] (by decide) (by decide)
  have hmain := h.1 1 7 20 1 (by decide)
  refine ⟨hmain.1, ?_⟩
  exact hmain.2 ⟨10, 3, 100, 1, 1⟩ (by decide) rfl rfl (by decide) (by decide)

/-- A known modality name never makes `query_observations` raise. -/
lemma query_ok_of_known (db : List Obs) (m : String) (since maxTs : ℚ)
    (h : (modalityCode m).isSome) :
    ∃ r, query_observations db m since maxTs = .ok r := by
  cases hc : modalityCode m with
  | none =>
    rw [hc] at h
    simp at h
  | some code =>
    exact ⟨(queryRows db code since maxTs).foldl queryFoldStep [],
      by simp [query_observations, hc]⟩

/-- The modality loop returns the `(None, 0.0)` marker for the whole request
whenever the modalities are all known and at least one of them has an empty
observation set in the window. -/
lemma interpLoop_none (db : List Obs) (since maxTs : ℚ) :
    ∀ (mods : List String) (acc : List (String × ℚ)) (resTs : ℚ)
      (c : Cache) (fr : ℕ),
      (∀ m ∈ mods, (modalityCode m).isSome) →
      (∃ m ∈ mods, query_observations db m since maxTs = .ok []) →
      (interpLoop db since maxTs mods acc resTs c fr).map
        (fun res => (res.1, res.2.1)) = .ok (none, 0) := by
  intro mods
  induction mods with
  | nil =>
    intro acc resTs c fr _ hempty
    rcases hempty with ⟨m, hm, _⟩
    simp at hm
  | cons m rest ih =>
    intro acc resTs c fr hknown hempty
    obtain ⟨r, hr⟩ := query_ok_of_known db m since maxTs (hknown m (by simp))
    by_cases hlen : r.length = 0
    · have hre : r = [] := List.length_eq_zero.mp hlen
      subst hre
      simp [interpLoop, hr, Except.map]
    · rcases hempty with ⟨m0, hm0, hq0⟩
      rcases List.mem_cons.mp hm0 with rfl | hm0r
      · have hre : r = [] := by
          rw [hq0] at hr
          exact (Except.ok.inj hr).symm
        exact absurd (by simp [hre]) hlen
      · simp only [interpLoop, hr, if_neg hlen]
        exact ih _ _ _ _ (fun m2 hm2 => hknown m2 (by simp [hm2]))
          ⟨m0, hm0r, hq0⟩

/-- C1 counterexample: with one `temperature` observation stored and no
`humidity` observation, requesting `["temperature", "humidity"]` does not
return a partial result set: the whole call returns the `(None, 0.0)` marker
(discarding the temperature interpolation already computed), with only the
cache side effect of the first modality surviving. -/
theorem interp_no_partial_result_counterexample :
    query_observations sampleDb2 "temperature" 0 100 =
      .ok [(1, (5, 20, 1))] ∧
    query_observations sampleDb2 "humidity" 0 100 = .ok [] ∧
    interpolate_observations sampleDb2 ["temperature", "humidity"]
        0 100 [] 0 =
      .ok (none, 0, [(("temperature", 20), (0, 1))], 1) := by
  refine ⟨by decide, by decide, by decide⟩

/-- C1 amended: failure to find observations for one requested (known)
modality aborts the whole request — `interpolate_observations` returns
`(None, 0.0)` rather than a partial result set with per-modality absence
markers; per-modality independence exists only one layer up, in
`query_interpolated`, which issues a separate single-modality request per
modality and swallows its failures. -/
theorem interp_aborts_on_empty_modality (db : List Obs)
    (modalities : List String) (since maxTs : ℚ) (c : Cache) (fr : ℕ)
    (hknown : ∀ m ∈ modalities, (modalityCode m).isSome)
    (hempty : ∃ m ∈ modalities,
      query_observations db m since maxTs = .ok []) :
    (interpolate_observations db modalities since maxTs c fr).map
      (fun res => (res.1, res.2.1)) = .ok (none, 0) :=
  interpLoop_none db since maxTs modalities [] 0 c fr hknown hempty

/-- Witness for C1's amended statement at the counterexample input. -/
theorem interp_aborts_on_empty_modality_witness :
    (interpolate_observations sampleDb2 ["temperature", "humidity"]
        0 100 [] 0).map (fun res => (res.1, res.2.1)) = .ok (none, 0) :=
  interp_aborts_on_empty_modality sampleDb2 ["temperature", "humidity"]
    0 100 [] 0 (by decide) ⟨"humidity", by decide, by decide⟩
